import Mathlib

/-!
Kernel clock (`src/rtos/rtthread/src/clock.c`).

A shallow embedding of the tick/clock driver of the kernel: the global tick
counter `rt_tick`, the per-tick entry points `rt_tick_increase` and
`rt_tick_increase_by_step`, the accessors `rt_tick_get` / `rt_tick_set`, and the
two conversions `rt_tick_from_millisecond` / `rt_tick_get_millisecond`.

Machine integers are `Nat` / `Int` with explicit reduction modulo `2 ^ 32`.
Functions defined outside `clock.c` (`rt_hw_interrupt_disable`,
`rt_hw_interrupt_enable`, `rt_thread_self`, `rt_thread_yield`,
`rt_timer_check`) are recorded, in program order, in an event trace kept in the
kernel state, together with every store to `rt_tick`.
-/

namespace Clock

/-! ## Machine integers -/

/-- Number of values of `rt_tick_t` (`rt_uint32_t`) and of `rt_ubase_t`. -/
def UINT32_MOD : Nat := 4294967296

/-- Conversion of a mathematical integer to `rt_tick_t` (unsigned 32 bit). -/
def to_uint32 (x : Int) : Int := x % 4294967296

/-- Conversion of a mathematical integer to a signed 32 bit `int`
(two-complement wrap). -/
def to_int32 (x : Int) : Int := (x + 2147483648) % 4294967296 - 2147483648

/-- Range of a signed 32 bit `int`. -/
def in_int32 (x : Int) : Prop := -2147483648 ≤ x ∧ x ≤ 2147483647

/-- Range of an unsigned 32 bit integer. -/
def in_uint32 (x : Int) : Prop := 0 ≤ x ∧ x ≤ 4294967295

instance (x : Int) : Decidable (in_int32 x) := by
  unfold in_int32; infer_instance

instance (x : Int) : Decidable (in_uint32 x) := by
  unfold in_uint32; infer_instance

/-- Wrap-safe difference `new - old` of two tick values: the difference modulo
`2 ^ 32` read as a signed 32 bit value. -/
def tick_diff (new old : Nat) : Int :=
  to_int32 ((new : Int) - (old : Int))

/-! ## Kernel state -/

/-- Events of one run, in program order: calls that leave `clock.c`, and
stores to the global `rt_tick`. -/
inductive Event where
  /-- The call `rt_hw_interrupt_disable()`, with the level it returned. -/
  | rt_hw_interrupt_disable (ret : Int)
  /-- The call `rt_hw_interrupt_enable(level)`. -/
  | rt_hw_interrupt_enable (level : Int)
  /-- A store of `v` to the global `rt_tick`. -/
  | write_rt_tick (v : Nat)
  /-- The call `rt_thread_self()`. -/
  | rt_thread_self
  /-- The call `rt_thread_yield()`. -/
  | rt_thread_yield
  /-- The call `rt_timer_check()`. -/
  | rt_timer_check
  deriving DecidableEq, Repr

/-- The two fields of `struct rt_thread` that `clock.c` touches
(both `rt_ubase_t`). -/
structure rt_thread where
  init_tick : Nat
  remaining_tick : Nat
  deriving DecidableEq, Repr

/-- Kernel state seen by `clock.c`. -/
structure Kernel where
  /-- The value of `static rt_tick_t rt_tick`. -/
  rt_tick : Nat
  /-- The thread `rt_thread_self()` returns. -/
  thread : rt_thread
  /-- The interrupt level `rt_hw_interrupt_disable()` returns. -/
  irq_level : Int
  /-- Events so far, oldest first. -/
  trace : List Event
  deriving DecidableEq, Repr

/-- State at boot: `static rt_tick_t rt_tick = 0;`. -/
def boot (th : rt_thread) (lvl : Int) : Kernel :=
  { rt_tick := 0, thread := th, irq_level := lvl, trace := [] }

/-- Record one event. -/
def emit (e : Event) (k : Kernel) : Kernel :=
  { k with trace := k.trace ++ [e] }

/-- A store `rt_tick = v` (the value is reduced to 32 bits). -/
def store_rt_tick (v : Nat) (k : Kernel) : Kernel :=
  emit (Event.write_rt_tick (v % UINT32_MOD)) { k with rt_tick := v % UINT32_MOD }

/-- A store to `thread->remaining_tick` (reduced to 32 bits). -/
def store_remaining_tick (v : Nat) (k : Kernel) : Kernel :=
  { k with thread := { k.thread with remaining_tick := v % UINT32_MOD } }

/-- The decrement `-- x` of an unsigned 32 bit value: `0` wraps around to
`0xFFFFFFFF`. -/
def dec_uint32 (x : Nat) : Nat :=
  if x = 0 then UINT32_MOD - 1 else x - 1

/-- The events a call emitted, given the state before and after it. -/
def emitted (before after : Kernel) : List Event :=
  after.trace.drop before.trace.length

/-! ## The functions of `clock.c` -/

/-- Function `rt_system_tick_init`: its body is empty, `void rt_system_tick_init(void) { }`. -/
def rt_system_tick_init (k : Kernel) : Kernel := k

/-- Function `rt_tick_get`, whose body is `return rt_tick;`: the returned value
and the state after the call. -/
def rt_tick_get (k : Kernel) : Nat × Kernel := (k.rt_tick, k)

/-- Function `rt_tick_set`:
```
level = rt_hw_interrupt_disable();
rt_tick = tick;
rt_hw_interrupt_enable(level);
``` -/
def rt_tick_set (tick : Nat) (k : Kernel) : Kernel :=
  let level := k.irq_level
  let k1 := emit (Event.rt_hw_interrupt_disable level) k
  let k2 := store_rt_tick tick k1
  emit (Event.rt_hw_interrupt_enable level) k2

/-- Function `rt_tick_increase`:
```
++ rt_tick;
thread = rt_thread_self();
-- thread->remaining_tick;
if (thread->remaining_tick == 0)
{
    thread->remaining_tick = thread->init_tick;
    rt_thread_yield();
}
rt_timer_check();
``` -/
def rt_tick_increase (k : Kernel) : Kernel :=
  let k1 := store_rt_tick (k.rt_tick + 1) k
  let k2 := emit Event.rt_thread_self k1
  let k3 := store_remaining_tick (dec_uint32 k2.thread.remaining_tick) k2
  let k4 :=
    if k3.thread.remaining_tick = 0 then
      emit Event.rt_thread_yield (store_remaining_tick k3.thread.init_tick k3)
    else k3
  emit Event.rt_timer_check k4

/-- Function `rt_tick_increase_by_step`:
```
rt_tick += step;
thread = rt_thread_self();
if (thread->remaining_tick > step)
{
    thread->remaining_tick -= step;
}
else
{
    thread->remaining_tick = thread->init_tick;
    rt_thread_yield();
}
rt_timer_check();
``` -/
def rt_tick_increase_by_step (step : Nat) (k : Kernel) : Kernel :=
  let k1 := store_rt_tick (k.rt_tick + step) k
  let k2 := emit Event.rt_thread_self k1
  let k3 :=
    if k2.thread.remaining_tick > step then
      store_remaining_tick (k2.thread.remaining_tick - step) k2
    else
      emit Event.rt_thread_yield (store_remaining_tick k2.thread.init_tick k2)
  emit Event.rt_timer_check k3

/-- Function `rt_tick_from_millisecond`, with the configuration macros
`RT_TICK_PER_SECOND` and `RT_WAITING_FOREVER` (both `int` constants defined
outside `clock.c`) as parameters:
```
if (ms < 0)
    tick = (rt_tick_t)RT_WAITING_FOREVER;
else
{
    tick = RT_TICK_PER_SECOND * (ms / 1000);
    tick += (RT_TICK_PER_SECOND * (ms % 1000) + 999) / 1000;
}
return tick;
```
The products and the `+ 999` are `int` arithmetic (wrapped to 32 bits), `/` and
`%` truncate toward zero, and `tick` is unsigned 32 bit. -/
def rt_tick_from_millisecond (RT_TICK_PER_SECOND RT_WAITING_FOREVER ms : Int) : Int :=
  if ms < 0 then
    to_uint32 RT_WAITING_FOREVER
  else
    let tick := to_uint32 (to_int32 (RT_TICK_PER_SECOND * Int.tdiv ms 1000))
    let inc :=
      Int.tdiv (to_int32 (to_int32 (RT_TICK_PER_SECOND * Int.tmod ms 1000) + 999)) 1000
    to_uint32 (tick + to_uint32 inc)

/-- Function `rt_tick_get_millisecond`, with `RT_TICK_PER_SECOND` as a parameter.
Under the preprocessor condition `1000 % RT_TICK_PER_SECOND == 0u` the body is
`return rt_tick_get() * (1000u / RT_TICK_PER_SECOND);` (unsigned 32 bit
product), otherwise it is `return 0;`. -/
def rt_tick_get_millisecond (RT_TICK_PER_SECOND : Nat) (k : Kernel) : Nat :=
  if 1000 % RT_TICK_PER_SECOND = 0 then
    ((rt_tick_get k).1 * (1000 / RT_TICK_PER_SECOND)) % UINT32_MOD
  else 0

/-! ## Vocabulary of the properties -/

/-- The state after `n` successive calls of `rt_tick_increase`. -/
def rt_tick_increase_times : Nat → Kernel → Kernel
  | 0, k => k
  | n + 1, k => rt_tick_increase_times n (rt_tick_increase k)

/-- Every stored machine word of the state is a 32 bit value. -/
def Kernel.wf (k : Kernel) : Prop :=
  k.rt_tick < UINT32_MOD ∧ k.thread.init_tick < UINT32_MOD ∧
    k.thread.remaining_tick < UINT32_MOD

instance (k : Kernel) : Decidable k.wf := by
  unfold Kernel.wf; infer_instance

/-- Some occurrence of `a` comes before some occurrence of `b` in the trace. -/
def occurs_before (a b : Event) : List Event → Bool
  | [] => false
  | e :: rest => (decide (e = a) && rest.contains b) || occurs_before a b rest

/-- Scan of a trace for the critical-section discipline on `rt_tick`. The first
argument is `none` outside a critical section and `some level` inside one opened
by an `rt_hw_interrupt_disable()` that returned `level`. A store to `rt_tick` is
accepted only inside a section, a section is closed only by
`rt_hw_interrupt_enable` of the saved level, and the trace must not end inside
an open section. -/
def writes_protected : Option Int → List Event → Bool
  | none, [] => true
  | some _, [] => false
  | none, Event.rt_hw_interrupt_disable ret :: rest => writes_protected (some ret) rest
  | some _, Event.rt_hw_interrupt_disable _ :: _ => false
  | none, Event.rt_hw_interrupt_enable _ :: _ => false
  | some saved, Event.rt_hw_interrupt_enable level :: rest =>
      decide (level = saved) && writes_protected none rest
  | none, Event.write_rt_tick _ :: _ => false
  | some saved, Event.write_rt_tick _ :: rest => writes_protected (some saved) rest
  | st, Event.rt_thread_self :: rest => writes_protected st rest
  | st, Event.rt_thread_yield :: rest => writes_protected st rest
  | st, Event.rt_timer_check :: rest => writes_protected st rest

/-- The event is a call of `rt_hw_interrupt_disable` or `rt_hw_interrupt_enable`. -/
def is_irq_call : Event → Bool
  | Event.rt_hw_interrupt_disable _ => true
  | Event.rt_hw_interrupt_enable _ => true
  | _ => false

/-- The event is a store to `rt_tick`. -/
def is_tick_write : Event → Bool
  | Event.write_rt_tick _ => true
  | _ => false

/-- Reference definition of the millisecond-to-tick conversion, after the
documentation of `rt_tick_from_millisecond`: a negative number waits forever,
zero does not wait, and otherwise the result is the ceiling of
`ms * RT_TICK_PER_SECOND / 1000` over the unbounded integers. -/
def tick_from_millisecond_ref (RT_TICK_PER_SECOND RT_WAITING_FOREVER ms : Int) : Int :=
  if ms < 0 then to_uint32 RT_WAITING_FOREVER
  else if ms = 0 then 0
  else -((-(ms * RT_TICK_PER_SECOND)) / 1000)

/-- A state whose running thread has one tick of its slice left and whose
counter is at its largest value. -/
def k_last_tick : Kernel :=
  { rt_tick := 4294967295, thread := { init_tick := 10, remaining_tick := 1 },
    irq_level := 0, trace := [] }

/-- A state whose running thread has three ticks of its slice left. -/
def k_mid_slice : Kernel :=
  { rt_tick := 41, thread := { init_tick := 10, remaining_tick := 3 },
    irq_level := 0, trace := [] }

/-! ## Helper lemmas -/

theorem emit_rt_tick (e : Event) (k : Kernel) : (emit e k).rt_tick = k.rt_tick := rfl

theorem emit_thread (e : Event) (k : Kernel) : (emit e k).thread = k.thread := rfl

theorem emit_trace (e : Event) (k : Kernel) : (emit e k).trace = k.trace ++ [e] := rfl

theorem store_rt_tick_rt_tick (v : Nat) (k : Kernel) :
    (store_rt_tick v k).rt_tick = v % UINT32_MOD := rfl

theorem store_rt_tick_thread (v : Nat) (k : Kernel) :
    (store_rt_tick v k).thread = k.thread := rfl

theorem store_rt_tick_trace (v : Nat) (k : Kernel) :
    (store_rt_tick v k).trace = k.trace ++ [Event.write_rt_tick (v % UINT32_MOD)] := rfl

theorem store_remaining_tick_rt_tick (v : Nat) (k : Kernel) :
    (store_remaining_tick v k).rt_tick = k.rt_tick := rfl

theorem store_remaining_tick_trace (v : Nat) (k : Kernel) :
    (store_remaining_tick v k).trace = k.trace := rfl

theorem store_remaining_tick_remaining (v : Nat) (k : Kernel) :
    (store_remaining_tick v k).thread.remaining_tick = v % UINT32_MOD := rfl

theorem store_remaining_tick_init (v : Nat) (k : Kernel) :
    (store_remaining_tick v k).thread.init_tick = k.thread.init_tick := rfl

theorem rt_tick_increase_rt_tick (k : Kernel) :
    (rt_tick_increase k).rt_tick = (k.rt_tick + 1) % UINT32_MOD := by
  unfold rt_tick_increase
  dsimp only
  split <;> rfl

theorem rt_tick_increase_times_rt_tick (n : Nat) (k : Kernel) (h : k.rt_tick < UINT32_MOD) :
    (rt_tick_increase_times n k).rt_tick = (k.rt_tick + n) % UINT32_MOD := by
  induction n generalizing k with
  | zero => exact (Nat.mod_eq_of_lt h).symm
  | succ n ih =>
    have hlt : (rt_tick_increase k).rt_tick < UINT32_MOD := by
      rw [rt_tick_increase_rt_tick]
      exact Nat.mod_lt _ (by decide)
    rw [rt_tick_increase_times, ih _ hlt, rt_tick_increase_rt_tick]
    simp only [UINT32_MOD]
    omega

/-- The events one call of `rt_tick_increase` emits, as a function of the slice
left to the running thread. -/
theorem rt_tick_increase_trace (k : Kernel) :
    (rt_tick_increase k).trace =
      k.trace ++ (Event.write_rt_tick ((k.rt_tick + 1) % UINT32_MOD) :: Event.rt_thread_self ::
        (if dec_uint32 k.thread.remaining_tick % UINT32_MOD = 0
          then [Event.rt_thread_yield, Event.rt_timer_check] else [Event.rt_timer_check])) := by
  unfold rt_tick_increase
  dsimp only
  simp only [emit_thread, store_rt_tick_thread, store_remaining_tick_remaining]
  split
  · simp only [emit_trace, store_remaining_tick_trace, store_rt_tick_trace, List.append_assoc,
      List.cons_append, List.nil_append]
  · simp only [emit_trace, store_remaining_tick_trace, store_rt_tick_trace, List.append_assoc,
      List.cons_append, List.nil_append]

/-- The thread fields after one call of `rt_tick_increase`. -/
theorem rt_tick_increase_thread (k : Kernel) :
    (rt_tick_increase k).thread.init_tick = k.thread.init_tick ∧
    (rt_tick_increase k).thread.remaining_tick =
      (if dec_uint32 k.thread.remaining_tick % UINT32_MOD = 0
        then k.thread.init_tick % UINT32_MOD
        else dec_uint32 k.thread.remaining_tick % UINT32_MOD) := by
  unfold rt_tick_increase
  dsimp only
  simp only [emit_thread, store_rt_tick_thread, store_remaining_tick_remaining]
  split
  · simp only [emit_thread, store_remaining_tick_remaining, store_remaining_tick_init,
      store_rt_tick_thread, and_self]
  · simp only [emit_thread, store_remaining_tick_remaining, store_remaining_tick_init,
      store_rt_tick_thread, and_self]

theorem emitted_append (k k2 : Kernel) (l : List Event) (h : k2.trace = k.trace ++ l) :
    emitted k k2 = l := by
  unfold emitted
  rw [h]
  exact List.drop_left _ _

theorem rt_tick_set_rt_tick (tick : Nat) (k : Kernel) :
    (rt_tick_set tick k).rt_tick = tick % UINT32_MOD := rfl

theorem rt_tick_set_trace (tick : Nat) (k : Kernel) :
    (rt_tick_set tick k).trace =
      k.trace ++ [Event.rt_hw_interrupt_disable k.irq_level,
        Event.write_rt_tick (tick % UINT32_MOD), Event.rt_hw_interrupt_enable k.irq_level] := by
  unfold rt_tick_set
  dsimp only
  simp only [emit_trace, store_rt_tick_trace, List.append_assoc, List.cons_append,
    List.nil_append]

theorem rt_tick_increase_by_step_rt_tick (step : Nat) (k : Kernel) :
    (rt_tick_increase_by_step step k).rt_tick = (k.rt_tick + step) % UINT32_MOD := by
  unfold rt_tick_increase_by_step
  dsimp only
  split <;> rfl

/-- The events one call of `rt_tick_increase_by_step` emits. -/
theorem rt_tick_increase_by_step_trace (step : Nat) (k : Kernel) :
    (rt_tick_increase_by_step step k).trace =
      k.trace ++ (Event.write_rt_tick ((k.rt_tick + step) % UINT32_MOD) :: Event.rt_thread_self ::
        (if k.thread.remaining_tick > step
          then [Event.rt_timer_check] else [Event.rt_thread_yield, Event.rt_timer_check])) := by
  unfold rt_tick_increase_by_step
  dsimp only
  simp only [emit_thread, store_rt_tick_thread]
  split
  · simp only [emit_trace, store_remaining_tick_trace, store_rt_tick_trace, List.append_assoc,
      List.cons_append, List.nil_append]
  · simp only [emit_trace, store_remaining_tick_trace, store_rt_tick_trace, List.append_assoc,
      List.cons_append, List.nil_append]

/-! ## The time slice (C2) -/

/-- C2: for a running thread with `remaining_tick = r`, `1 ≤ r`, one call of
`rt_tick_increase` leaves `remaining_tick = r - 1` and makes no call of
`rt_thread_yield` when `r > 1`, and leaves `remaining_tick = init_tick` and calls
`rt_thread_yield` exactly once when `r = 1`; `init_tick` is unchanged in both
cases. -/
theorem rt_tick_increase_time_slice (k : Kernel) (r : Nat) (hwf : k.wf)
    (hr : k.thread.remaining_tick = r) (h1 : 1 ≤ r) :
    (rt_tick_increase k).thread.remaining_tick = (if r = 1 then k.thread.init_tick else r - 1) ∧
    (emitted k (rt_tick_increase k)).count Event.rt_thread_yield = (if r = 1 then 1 else 0) ∧
    (rt_tick_increase k).thread.init_tick = k.thread.init_tick := by
  obtain ⟨_, hinit, hrem⟩ := hwf
  subst hr
  have hdec : dec_uint32 k.thread.remaining_tick % UINT32_MOD = k.thread.remaining_tick - 1 := by
    unfold dec_uint32
    rw [if_neg (by omega)]
    exact Nat.mod_eq_of_lt (by omega)
  have htr := rt_tick_increase_trace k
  obtain ⟨hi, hrm⟩ := rt_tick_increase_thread k
  rw [hdec] at htr hrm
  refine ⟨?_, ?_, hi⟩
  · rw [hrm]
    by_cases h : k.thread.remaining_tick = 1
    · rw [if_pos h, if_pos (by omega)]
      exact Nat.mod_eq_of_lt hinit
    · rw [if_neg h, if_neg (by omega)]
  · rw [emitted_append k _ _ htr]
    by_cases h : k.thread.remaining_tick = 1
    · rw [if_pos h, if_pos (by omega)]
      rfl
    · rw [if_neg h, if_neg (by omega)]
      rfl

/-- Instance of C2 on the last tick of a slice (`r = 1`, `init_tick = 10`). -/
theorem rt_tick_increase_time_slice_witness :
    k_last_tick.wf ∧ k_last_tick.thread.remaining_tick = 1 ∧ 1 ≤ 1 ∧
    (rt_tick_increase k_last_tick).thread.remaining_tick = 10 ∧
    (emitted k_last_tick (rt_tick_increase k_last_tick)).count Event.rt_thread_yield = 1 ∧
    (rt_tick_increase k_last_tick).thread.init_tick = 10 :=
  ⟨by decide, rfl, le_refl 1,
    rt_tick_increase_time_slice k_last_tick 1 (by decide) rfl (le_refl 1)⟩

/-! ## The tick counter (C3) -/

/-- C3: starting from a counter value `t`, after `n` calls of `rt_tick_increase`
the value `rt_tick_get` returns is `(t + n) mod 2 ^ 32`, and `rt_tick_get` leaves
the whole state, the counter included, unchanged. -/
theorem rt_tick_increase_times_get (k : Kernel) (t n : Nat) (ht : k.rt_tick = t)
    (h32 : t < 2 ^ 32) :
    (rt_tick_get (rt_tick_increase_times n k)).1 = (t + n) % 2 ^ 32 ∧
    (rt_tick_get k).2 = k := by
  subst ht
  exact ⟨rt_tick_increase_times_rt_tick n k h32, rfl⟩

/-- Instance of C3: the counter value `0xFFFFFFFF` is followed by `0`. -/
theorem rt_tick_increase_times_get_witness :
    k_last_tick.rt_tick = 4294967295 ∧ 4294967295 < 2 ^ 32 ∧
    (rt_tick_get (rt_tick_increase_times 1 k_last_tick)).1 = (4294967295 + 1) % 2 ^ 32 ∧
    (4294967295 + 1) % 2 ^ 32 = 0 ∧
    (rt_tick_get k_last_tick).2 = k_last_tick :=
  ⟨rfl, by norm_num,
    (rt_tick_increase_times_get k_last_tick 4294967295 1 rfl (by norm_num)).1, by norm_num,
    (rt_tick_increase_times_get k_last_tick 4294967295 1 rfl (by norm_num)).2⟩

/-! ## Order of the calls of one tick (C1) -/

/-- C1, as stated, fails: on the last tick of a slice (`remaining_tick = 1`)
the calls of `rt_tick_increase` are `rt_thread_self`, `rt_thread_yield`,
`rt_timer_check` in this order, so `rt_timer_check` does not come before
`rt_thread_yield`. -/
theorem timer_check_before_yield_counterexample :
    k_last_tick.thread.remaining_tick = 1 ∧
    emitted k_last_tick (rt_tick_increase k_last_tick) =
      [Event.write_rt_tick 0, Event.rt_thread_self, Event.rt_thread_yield,
        Event.rt_timer_check] ∧
    occurs_before Event.rt_timer_check Event.rt_thread_yield
      (emitted k_last_tick (rt_tick_increase k_last_tick)) = false := by
  decide

/-- C1, amended: for every kernel state in which the running thread has
`remaining_tick = 1`, `rt_tick_increase` stores the counter, then calls
`rt_thread_self`, `rt_thread_yield` and `rt_timer_check` in this order: the call
of `rt_thread_yield` comes before the call of `rt_timer_check`, and not after
it. -/
theorem rt_tick_increase_yield_before_timer_check (k : Kernel)
    (hr : k.thread.remaining_tick = 1) :
    emitted k (rt_tick_increase k) =
      [Event.write_rt_tick ((k.rt_tick + 1) % 2 ^ 32), Event.rt_thread_self,
        Event.rt_thread_yield, Event.rt_timer_check] ∧
    occurs_before Event.rt_thread_yield Event.rt_timer_check
      (emitted k (rt_tick_increase k)) = true ∧
    occurs_before Event.rt_timer_check Event.rt_thread_yield
      (emitted k (rt_tick_increase k)) = false := by
  have htr := rt_tick_increase_trace k
  have hdec : dec_uint32 k.thread.remaining_tick % UINT32_MOD = 0 := by
    rw [hr]; rfl
  rw [if_pos hdec] at htr
  rw [emitted_append k _ _ htr]
  exact ⟨rfl, rfl, rfl⟩

/-- Instance of the amended C1 on the last tick of a slice. -/
theorem rt_tick_increase_yield_before_timer_check_witness :
    k_last_tick.thread.remaining_tick = 1 ∧
    occurs_before Event.rt_thread_yield Event.rt_timer_check
      (emitted k_last_tick (rt_tick_increase k_last_tick)) = true :=
  ⟨rfl, (rt_tick_increase_yield_before_timer_check k_last_tick rfl).2.1⟩

/-! ## Interrupt protection of the counter (C6) -/

/-- C6, as stated, fails: `rt_tick_increase` and `rt_tick_increase_by_step`
store `rt_tick` outside any `rt_hw_interrupt_disable` /
`rt_hw_interrupt_enable` pair. -/
theorem tick_write_protected_counterexample :
    emitted k_mid_slice (rt_tick_increase k_mid_slice) =
      [Event.write_rt_tick 42, Event.rt_thread_self, Event.rt_timer_check] ∧
    writes_protected none (emitted k_mid_slice (rt_tick_increase k_mid_slice)) = false ∧
    writes_protected none (emitted k_mid_slice (rt_tick_increase_by_step 7 k_mid_slice))
      = false := by
  decide

/-- C6, amended: `rt_tick_set` makes exactly the calls
`rt_hw_interrupt_disable()`, the store to `rt_tick`,
`rt_hw_interrupt_enable(level)` with the level the first call returned, so its
store is protected; `rt_tick_increase` and `rt_tick_increase_by_step` each store
`rt_tick` exactly once and call neither `rt_hw_interrupt_disable` nor
`rt_hw_interrupt_enable`. -/
theorem tick_write_protection (k : Kernel) (tick step : Nat) :
    emitted k (rt_tick_set tick k) =
      [Event.rt_hw_interrupt_disable k.irq_level, Event.write_rt_tick (tick % 2 ^ 32),
        Event.rt_hw_interrupt_enable k.irq_level] ∧
    writes_protected none (emitted k (rt_tick_set tick k)) = true ∧
    (emitted k (rt_tick_increase k)).countP is_tick_write = 1 ∧
    (emitted k (rt_tick_increase k)).any is_irq_call = false ∧
    (emitted k (rt_tick_increase_by_step step k)).countP is_tick_write = 1 ∧
    (emitted k (rt_tick_increase_by_step step k)).any is_irq_call = false := by
  rw [emitted_append k _ _ (rt_tick_set_trace tick k),
    emitted_append k _ _ (rt_tick_increase_trace k),
    emitted_append k _ _ (rt_tick_increase_by_step_trace step k)]
  refine ⟨rfl, ?_, ?_, ?_, ?_, ?_⟩
  · simp [writes_protected]
  · split <;> rfl
  · split <;> rfl
  · split <;> rfl
  · split <;> rfl

/-! ## Monotonicity of the counter (C5) -/

/-- C5, as stated, fails: `rt_tick_set(0)` on a counter at `41` moves the
counter back by `41` ticks, and `rt_tick_increase_by_step` with a step of
`2 ^ 31` lands on a value that compares as earlier. -/
theorem tick_monotone_counterexample :
    k_mid_slice.rt_tick = 41 ∧
    tick_diff (rt_tick_set 0 k_mid_slice).rt_tick k_mid_slice.rt_tick = -41 ∧
    ¬ (0 ≤ tick_diff (rt_tick_set 0 k_mid_slice).rt_tick k_mid_slice.rt_tick) ∧
    ¬ (0 ≤ tick_diff (rt_tick_increase_by_step 2147483648 k_mid_slice).rt_tick
      k_mid_slice.rt_tick) := by
  decide

/-- C5, amended: under wrap-safe comparison the counter never moves backwards
under `rt_tick_increase`, `rt_tick_get` and `rt_system_tick_init`; under
`rt_tick_increase_by_step(step)` it does not move backwards exactly when
`step < 2 ^ 31`; and `rt_tick_set(tick)` stores `tick` whatever the prior value,
so the counter does not move backwards exactly when
`(tick - old) mod 2 ^ 32 < 2 ^ 31`. -/
theorem tick_monotone (k : Kernel) (hk : k.rt_tick < 2 ^ 32) :
    0 ≤ tick_diff (rt_tick_increase k).rt_tick k.rt_tick ∧
    0 ≤ tick_diff (rt_tick_get k).2.rt_tick k.rt_tick ∧
    0 ≤ tick_diff (rt_system_tick_init k).rt_tick k.rt_tick ∧
    (∀ step : Nat, step < 2 ^ 32 →
      (0 ≤ tick_diff (rt_tick_increase_by_step step k).rt_tick k.rt_tick ↔ step < 2 ^ 31)) ∧
    (∀ tick : Nat, tick < 2 ^ 32 →
      (rt_tick_set tick k).rt_tick = tick ∧
      (0 ≤ tick_diff (rt_tick_set tick k).rt_tick k.rt_tick ↔
        (tick + 2 ^ 32 - k.rt_tick) % 2 ^ 32 < 2 ^ 31)) := by
  refine ⟨?_, ?_, ?_, ?_, ?_⟩
  · rw [rt_tick_increase_rt_tick]
    simp only [tick_diff, to_int32, UINT32_MOD]
    omega
  · simp only [rt_tick_get, tick_diff, to_int32]
    omega
  · simp only [rt_system_tick_init, tick_diff, to_int32]
    omega
  · intro step hs
    rw [rt_tick_increase_by_step_rt_tick]
    simp only [tick_diff, to_int32, UINT32_MOD]
    omega
  · intro tick ht
    rw [rt_tick_set_rt_tick]
    simp only [tick_diff, to_int32, UINT32_MOD]
    omega

/-- Instance of the amended C5: from a counter at `41`, a step of `7` and
`rt_tick_set(100)` both move the counter forwards. -/
theorem tick_monotone_witness :
    k_mid_slice.rt_tick < 2 ^ 32 ∧ 7 < 2 ^ 32 ∧ 100 < 2 ^ 32 ∧
    0 ≤ tick_diff (rt_tick_increase k_mid_slice).rt_tick k_mid_slice.rt_tick ∧
    (0 ≤ tick_diff (rt_tick_increase_by_step 7 k_mid_slice).rt_tick k_mid_slice.rt_tick
      ↔ 7 < 2 ^ 31) ∧
    (rt_tick_set 100 k_mid_slice).rt_tick = 100 :=
  ⟨by decide, by norm_num, by norm_num,
    (tick_monotone k_mid_slice (by decide)).1,
    (tick_monotone k_mid_slice (by decide)).2.2.2.1 7 (by norm_num),
    ((tick_monotone k_mid_slice (by decide)).2.2.2.2 100 (by norm_num)).1⟩

/-! ## Milliseconds since boot (C7) -/

/-- C7: for a tick rate that divides `1000` and a counter value `t`,
`rt_tick_get_millisecond` returns `t * (1000 / RT_TICK_PER_SECOND) mod 2 ^ 32`,
which is the exact elapsed time `t * 1000 / RT_TICK_PER_SECOND` (a whole number
of milliseconds) whenever that is below `2 ^ 32`; for a tick rate that does not
divide `1000` it returns `0`. -/
theorem rt_tick_get_millisecond_spec (tps : Nat) (k : Kernel) :
    (tps ∣ 1000 →
      rt_tick_get_millisecond tps k = (k.rt_tick * (1000 / tps)) % 2 ^ 32 ∧
      (k.rt_tick * 1000 / tps < 2 ^ 32 →
        rt_tick_get_millisecond tps k = k.rt_tick * 1000 / tps ∧
        rt_tick_get_millisecond tps k * tps = k.rt_tick * 1000)) ∧
    (¬ tps ∣ 1000 → rt_tick_get_millisecond tps k = 0) := by
  constructor
  · intro hd
    have hmod : 1000 % tps = 0 := Nat.mod_eq_zero_of_dvd hd
    have hval : rt_tick_get_millisecond tps k = (k.rt_tick * (1000 / tps)) % 2 ^ 32 := by
      unfold rt_tick_get_millisecond
      rw [if_pos hmod]
      rfl
    have hassoc : k.rt_tick * 1000 / tps = k.rt_tick * (1000 / tps) :=
      Nat.mul_div_assoc _ hd
    refine ⟨hval, fun hlt => ?_⟩
    rw [hassoc] at hlt
    have hex : rt_tick_get_millisecond tps k = k.rt_tick * (1000 / tps) := by
      rw [hval]; exact Nat.mod_eq_of_lt hlt
    refine ⟨by rw [hex, hassoc], ?_⟩
    rw [hex, Nat.mul_assoc, Nat.div_mul_cancel hd]
  · intro hd
    have hmod : ¬ 1000 % tps = 0 := fun h => hd (Nat.dvd_of_mod_eq_zero h)
    unfold rt_tick_get_millisecond
    rw [if_neg hmod]

/-- Instance of C7: at `100` ticks per second a counter of `41` is `410` ms and a
counter of `0xFFFFFFFF` wraps to `4294967286`; at `7` ticks per second the
function returns `0`. -/
theorem rt_tick_get_millisecond_spec_witness :
    (100 ∣ 1000 ∧ k_mid_slice.rt_tick * 1000 / 100 < 2 ^ 32 ∧
      rt_tick_get_millisecond 100 k_mid_slice = k_mid_slice.rt_tick * 1000 / 100 ∧
      k_mid_slice.rt_tick * 1000 / 100 = 410) ∧
    (rt_tick_get_millisecond 100 k_last_tick = (k_last_tick.rt_tick * (1000 / 100)) % 2 ^ 32 ∧
      (k_last_tick.rt_tick * (1000 / 100)) % 2 ^ 32 = 4294967286) ∧
    (¬ 7 ∣ 1000 ∧ rt_tick_get_millisecond 7 k_last_tick = 0) :=
  ⟨⟨by decide, by decide,
      (((rt_tick_get_millisecond_spec 100 k_mid_slice).1 (by decide)).2 (by decide)).1,
      by decide⟩,
    ⟨((rt_tick_get_millisecond_spec 100 k_last_tick).1 (by decide)).1, by decide⟩,
    ⟨by decide, (rt_tick_get_millisecond_spec 7 k_last_tick).2 (by decide)⟩⟩

/-! ## Initialisation of the counter (C8) -/

/-- C8, as stated, fails: with the counter at `5` (the boot state after
`rt_tick_set(5)`), a call of `rt_system_tick_init` leaves the counter at `5`,
and `rt_tick_get` then returns `5`, not `0`. -/
theorem rt_system_tick_init_zero_counterexample :
    (rt_tick_get (rt_tick_set 5 (boot ⟨10, 10⟩ 0))).1 = 5 ∧
    (rt_tick_get (rt_system_tick_init (rt_tick_set 5 (boot ⟨10, 10⟩ 0)))).1 = 5 ∧
    ¬ ((rt_tick_get (rt_system_tick_init (rt_tick_set 5 (boot ⟨10, 10⟩ 0)))).1 = 0) := by
  decide

/-- C8, amended: `rt_system_tick_init` (deprecated, with an empty body) changes
nothing: for every prior counter value, after calling it `rt_tick_get` returns
that same value and no event is emitted; the counter is zero after the call when
it was zero before it, as it is in the boot state, where the static initialiser
`rt_tick = 0` has set it. -/
theorem rt_system_tick_init_keeps_counter (k : Kernel) (th : rt_thread) (lvl : Int) :
    (rt_tick_get (rt_system_tick_init k)).1 = (rt_tick_get k).1 ∧
    emitted k (rt_system_tick_init k) = [] ∧
    rt_system_tick_init k = k ∧
    ((rt_tick_get (rt_system_tick_init k)).1 = 0 ↔ k.rt_tick = 0) ∧
    (rt_tick_get (rt_system_tick_init (boot th lvl))).1 = 0 := by
  refine ⟨rfl, ?_, rfl, Iff.rfl, rfl⟩
  unfold emitted rt_system_tick_init
  exact List.drop_length _

/-! ## Milliseconds to ticks (C4) -/

theorem to_int32_of_in (x : Int) (h : in_int32 x) : to_int32 x = x := by
  unfold in_int32 at h
  unfold to_int32
  omega

theorem to_uint32_of_in (x : Int) (h : in_uint32 x) : to_uint32 x = x := by
  unfold in_uint32 at h
  unfold to_uint32
  omega

/-- The unwrapped intermediate values of `rt_tick_from_millisecond` for
`0 ≤ ms ≤ 0x7fffffff` and `1 ≤ RT_TICK_PER_SECOND ≤ 1000`. -/
theorem rt_tick_from_millisecond_ranges (tps ms : Int) (h0 : 0 ≤ ms) (hmax : ms ≤ 2147483647)
    (h1 : 1 ≤ tps) (h2 : tps ≤ 1000) :
    Int.tdiv ms 1000 = ms / 1000 ∧ Int.tmod ms 1000 = ms % 1000 ∧
    0 ≤ tps * (ms / 1000) ∧ tps * (ms / 1000) ≤ 2147483000 ∧
    0 ≤ tps * (ms % 1000) ∧ tps * (ms % 1000) ≤ 999000 ∧
    ms * tps = 1000 * (tps * (ms / 1000)) + tps * (ms % 1000) := by
  have hq0 : 0 ≤ ms / 1000 := by omega
  have hq1 : ms / 1000 ≤ 2147483 := by omega
  have hr0 : 0 ≤ ms % 1000 := by omega
  have hr1 : ms % 1000 ≤ 999 := by omega
  refine ⟨Int.tdiv_eq_ediv h0 (by norm_num), Int.tmod_eq_emod h0 (by norm_num),
    by positivity, by nlinarith, by positivity, by nlinarith, ?_⟩
  have hsplit : ms = 1000 * (ms / 1000) + ms % 1000 := (Int.ediv_add_emod ms 1000).symm
  linear_combination tps * hsplit

/-- C4: `rt_tick_from_millisecond` agrees with the reference definition. For
every `ms < 0` it returns `RT_WAITING_FOREVER` converted to `rt_tick_t`; for
`ms = 0` it returns `0`; and for `1 ≤ RT_TICK_PER_SECOND ≤ 1000` and
`0 ≤ ms ≤ 0x7fffffff` no intermediate value leaves its 32 bit range and the
result is the ceiling of `ms * RT_TICK_PER_SECOND / 1000`: the returned ticks
are never shorter than the requested milliseconds and exceed them by less than
one tick. -/
theorem rt_tick_from_millisecond_eq_ref (tps forever ms : Int) (hms : in_int32 ms)
    (hcase : ms ≤ 0 ∨ (1 ≤ tps ∧ tps ≤ 1000)) :
    rt_tick_from_millisecond tps forever ms = tick_from_millisecond_ref tps forever ms ∧
    (ms < 0 → rt_tick_from_millisecond tps forever ms = to_uint32 forever) ∧
    (ms = 0 → rt_tick_from_millisecond tps forever ms = 0) ∧
    (0 ≤ ms → 1 ≤ tps → tps ≤ 1000 →
      in_int32 (tps * Int.tdiv ms 1000) ∧
      in_int32 (tps * Int.tmod ms 1000) ∧
      in_int32 (tps * Int.tmod ms 1000 + 999) ∧
      in_uint32 (tps * Int.tdiv ms 1000 + Int.tdiv (tps * Int.tmod ms 1000 + 999) 1000) ∧
      ms * tps ≤ 1000 * rt_tick_from_millisecond tps forever ms ∧
      1000 * rt_tick_from_millisecond tps forever ms < ms * tps + 1000) := by
  obtain ⟨hlo, hhi⟩ := hms
  have hneg : ms < 0 → rt_tick_from_millisecond tps forever ms = to_uint32 forever := by
    intro h
    unfold rt_tick_from_millisecond
    rw [if_pos h]
  have hzero : ms = 0 → rt_tick_from_millisecond tps forever ms = 0 := by
    intro h
    subst h
    simp [rt_tick_from_millisecond, to_int32, to_uint32, Int.tdiv, Int.tmod]
  have hpos : 0 ≤ ms → 1 ≤ tps → tps ≤ 1000 →
      rt_tick_from_millisecond tps forever ms
        = tps * (ms / 1000) + (tps * (ms % 1000) + 999) / 1000 := by
    intro h0 h1 h2
    obtain ⟨hd, hm, ha0, ha1, hb0, hb1, _⟩ := rt_tick_from_millisecond_ranges tps ms h0 hhi h1 h2
    unfold rt_tick_from_millisecond
    rw [if_neg (by omega)]
    dsimp only
    rw [hd, hm, to_int32_of_in _ ⟨by omega, by omega⟩, to_int32_of_in (tps * (ms % 1000)) ⟨by omega, by omega⟩,
      to_int32_of_in _ ⟨by omega, by omega⟩,
      Int.tdiv_eq_ediv (by omega) (by norm_num)]
    unfold to_uint32
    omega
  refine ⟨?_, hneg, hzero, ?_⟩
  · unfold tick_from_millisecond_ref
    by_cases hn : ms < 0
    · rw [if_pos hn]; exact hneg hn
    · rw [if_neg hn]
      by_cases hz : ms = 0
      · rw [if_pos hz]; exact hzero hz
      · rw [if_neg hz]
        have h0 : 0 ≤ ms := by omega
        obtain ⟨h1, h2⟩ := hcase.resolve_left (by omega)
        obtain ⟨_, _, ha0, ha1, hb0, hb1, hc⟩ :=
          rt_tick_from_millisecond_ranges tps ms h0 hhi h1 h2
        rw [hpos h0 h1 h2, hc]
        omega
  · intro h0 h1 h2
    obtain ⟨hd, hm, ha0, ha1, hb0, hb1, hc⟩ :=
      rt_tick_from_millisecond_ranges tps ms h0 hhi h1 h2
    rw [hpos h0 h1 h2, hd, hm, Int.tdiv_eq_ediv (by omega) (by norm_num), hc]
    unfold in_int32 in_uint32
    omega

/-- Instance of C4: at `100` ticks per second, `2147483647` ms are `214748365`
ticks (the ceiling of `214748364.7`), within one tick of the request, and `-5`
ms wait forever. -/
theorem rt_tick_from_millisecond_eq_ref_witness :
    (in_int32 2147483647 ∧ (1 : Int) ≤ 100 ∧ (100 : Int) ≤ 1000 ∧
      rt_tick_from_millisecond 100 (-1) 2147483647
        = tick_from_millisecond_ref 100 (-1) 2147483647 ∧
      rt_tick_from_millisecond 100 (-1) 2147483647 = 214748365 ∧
      (2147483647 : Int) * 100 ≤ 1000 * rt_tick_from_millisecond 100 (-1) 2147483647 ∧
      1000 * rt_tick_from_millisecond 100 (-1) 2147483647 < 2147483647 * 100 + 1000) ∧
    (in_int32 (-5) ∧ (-5 : Int) < 0 ∧
      rt_tick_from_millisecond 100 (-1) (-5) = to_uint32 (-1) ∧
      to_uint32 (-1) = 4294967295) :=
  ⟨⟨by decide, by decide, by decide,
      (rt_tick_from_millisecond_eq_ref 100 (-1) 2147483647 (by decide)
        (Or.inr ⟨by decide, by decide⟩)).1,
      by decide,
      ((rt_tick_from_millisecond_eq_ref 100 (-1) 2147483647 (by decide)
        (Or.inr ⟨by decide, by decide⟩)).2.2.2 (by decide) (by decide) (by decide)).2.2.2.2⟩,
    ⟨by decide, by decide,
      (rt_tick_from_millisecond_eq_ref 100 (-1) (-5) (by decide) (Or.inl (by decide))).2.1
        (by decide),
      by decide⟩⟩

end Clock
